import Mathlib

/-!
# Verification of the connect-typeorm session store

A shallow embedding of `src/app/TypeormStore/TypeormStore.ts` (the
TypeORM-backed `express-session` store) together with proofs of its
specified properties.

Modelling conventions:

* A session row (`ISession`) carries `id`, `json`, `expiredAt`
  (epoch milliseconds) and the soft-delete marker `destroyedAt`
  (nullable timestamp).  The backing table is a `List ISession`.
* JavaScript numbers that the store only ever treats as integral
  timestamps / ttl values are modelled as `Int`.
* `Date.now()` is passed explicitly as a `now : Int` argument.
* TypeORM's query builder hides soft-deleted rows unless
  `withDeleted()` is requested; `createQueryBuilder` below bakes that
  default in, exactly as the store's private `createQueryBuilder`
  relies on it.
* Fallible JavaScript steps (JSON.parse / JSON.stringify, storage
  round trips) are modelled with `Except Err` where the claims need
  them; `Err` is `String`.
-/

namespace ConnectTypeorm

abbrev Err := String

/-- A session id as it appears in a stored row.  The store's public API
takes string sids, but the cleanup escaping in `TypeormStore.ts`
distinguishes `typeof x.id === "string"` from numeric ids, so row ids
carry both shapes. -/
inductive SId where
  | str (s : String)
  | num (n : Int)
deriving DecidableEq, Repr

/-- The `ISession` entity: `id`, `json` payload, `expiredAt` (epoch ms),
and the nullable soft-delete timestamp `destroyedAt`. -/
structure ISession where
  id : SId
  json : String
  expiredAt : Int
  destroyedAt : Option Int
deriving DecidableEq, Repr

/-- The backing store: the rows of the session table. -/
abbrev Db := List ISession

/-- One day in seconds (`const oneDay = 86400`). -/
def oneDay : Int := 86400

/-- The express-session cookie metadata the store reads: only
`maxAge`, which may be absent or non-numeric (`none`). -/
structure Cookie where
  maxAge : Option Int
deriving DecidableEq, Repr

/-- `SessionData` from express-session: the store only ever inspects
`sess.cookie.maxAge` (the `cookie` field is mandatory in the
express-session type the store is compiled against). -/
structure SessionData where
  cookie : Cookie
deriving DecidableEq, Repr

/-- The `Ttl` configuration union: a fixed number of seconds, or a
derivation function.  In the source the function also receives the
store itself (`this`) as its first argument; that argument is the
fixed enclosing store, so it is curried away here. -/
inductive Ttl where
  | num (n : Int)
  | fn (f : SessionData → Option String → Int)

/-- `getTTL(sess, sid?)`: fixed numeric ttl first, then a ttl function,
then `cookie.maxAge` (milliseconds, floored to seconds), then the
one-day default.  `Math.floor(maxAge / 1000)` on an integral `maxAge`
is floor division, `Int.fdiv`. -/
def getTTL (ttl : Option Ttl) (sess : SessionData) (sid : Option String) : Int :=
  match ttl with
  | some (.num n) => n
  | some (.fn f) => f sess sid
  | none =>
    match sess.cookie.maxAge with
    | some maxAge => Int.fdiv maxAge 1000
    | none => oneDay

/-- The store's private `createQueryBuilder()`: visible rows only —
TypeORM's implicit soft-delete filter (`destroyedAt IS NULL`) plus the
explicit `session.expiredAt > Date.now()` condition. -/
def createQueryBuilder (db : Db) (now : Int) : Db :=
  db.filter (fun r => r.destroyedAt.isNone && decide (now < r.expiredAt))

/-- `get(sid, callback)`: query visible rows for the sid (`getOne`
returns the first match), report absent as a successful empty result,
otherwise `JSON.parse` the stored payload (`parse` injects the
deserializer, which may fail). -/
def getOp {α : Type} (parse : String → Except Err α) (db : Db) (sid : String) (now : Int) :
    Except Err (Option α) :=
  match (createQueryBuilder db now).find? (fun r => decide (r.id = SId.str sid)) with
  | none => .ok none
  | some r => (parse r.json).map some

/-- `all(callback)`: `getMany` on the visible rows, deserializing each
payload; the first deserialization failure aborts the whole call. -/
def allOp {α : Type} (parse : String → Except Err α) (db : Db) (now : Int) :
    Except Err (List (SId × α)) :=
  (createQueryBuilder db now).mapM (fun r => (parse r.json).map (fun a => (r.id, a)))

/-! ## Storage operations issued by `set` -/

/-- The storage statements a `set` call can issue, in issue order. -/
inductive StorageOp where
  | cleanupSelect
  | cleanupDelete
  | findOne
  | update
  | insert
deriving DecidableEq, Repr

/-! ## Cleanup engine -/

/-- The single-quote character (code point 39). -/
def squote : Char := Char.ofNat 39

/-- The backslash character (code point 92). -/
def bslash : Char := Char.ofNat 92

/-- First replacement pass of the cleanup id escaping:
`replace(/\\/g, "\\\\")` — every backslash is doubled. -/
def escBackslashAux : List Char → List Char
  | [] => []
  | c :: cs =>
    if c = bslash then bslash :: bslash :: escBackslashAux cs
    else c :: escBackslashAux cs

/-- Second replacement pass: `replace(/'/g, "\\'")` — every single
quote gains a preceding backslash. -/
def escQuoteAux : List Char → List Char
  | [] => []
  | c :: cs =>
    if c = squote then bslash :: squote :: escQuoteAux cs
    else c :: escQuoteAux cs

/-- Escaping of a string id for the enumerated-mode `IN` list: double
backslashes, then backslash-escape quotes, then wrap the result in
single quotes. -/
def escapeStringId (s : String) : String :=
  ⟨squote :: (escQuoteAux (escBackslashAux s.data) ++ [squote])⟩

/-- Rendering one candidate id into the literal list: string ids are
escaped and quoted, other (numeric) ids are rendered bare by
template-string interpolation. -/
def escapeId : SId → String
  | .str s => escapeStringId s
  | .num n => toString n

/-- Spec-side inverse of the escaping body: drop the backslash of each
two-character escape.  Used to state the round-trip property. -/
def unescAux : List Char → List Char
  | [] => []
  | [c] => [c]
  | c₁ :: c₂ :: cs =>
    if c₁ = bslash then c₂ :: unescAux cs
    else c₁ :: unescAux (c₂ :: cs)

/-- Spec-side unescaping of a produced literal: strip the wrapping
quotes and undo the character escapes. -/
def unescapeLiteral (lit : String) : String :=
  ⟨unescAux ((lit.data.drop 1).dropLast)⟩

/-- The cleanup candidate select: all rows — soft-deleted included
(`withDeleted()`) — with `expiredAt <= Date.now()`, limited to
`cleanupLimit` rows (`limit(this.cleanupLimit)`), in storage order. -/
def cleanupCandidates (db : Db) (now : Int) (limit : Nat) : List ISession :=
  (db.filter (fun r => decide (r.expiredAt ≤ now))).take limit

/-- Enumerated-mode id list: materialize the candidates and join their
escaped ids with `", "`; the `ids` variable stays unassigned
(`undefined`) when the select produced no rows. -/
def enumeratedIds (xs : List ISession) : Option String :=
  if xs.length > 0 then
    some (String.intercalate ", " (xs.map (fun x => escapeId x.id)))
  else none

/-- Subquery-mode id list: `$.getQuery()` renders the candidate select
to SQL text for embedding.  The exact rendering is the query builder's;
only its non-emptiness matters to the store. -/
def subqueryText (now : Int) (limit : Nat) : String :=
  "SELECT session.id FROM session WHERE session.expiredAt <= " ++ toString now
    ++ " LIMIT " ++ toString limit

/-- JavaScript truthiness test of the `ids` variable in
`if (!ids) { return; }`: `undefined` and the empty string are falsy. -/
def idsFalsy : Option String → Bool
  | none => true
  | some s => s.isEmpty

/-- `DELETE ... WHERE id IN (sel)`: removes every row — soft-deleted
included — whose id is in the selected list. -/
def deleteWhereIdIn (db : Db) (sel : List SId) : Db :=
  db.filter (fun r => !(decide (r.id ∈ sel)))

/-- Outcome of one `cleanup()` call: the surviving rows and the storage
statements issued. -/
structure CleanupResult where
  db : Db
  ops : List StorageOp
deriving DecidableEq, Repr

/-- `cleanup()`: disabled when `cleanupLimit` is falsy (0); otherwise
build the candidate select, turn it into an id list (subquery text, or
a materialized escaped literal list), skip the delete when that list is
falsy, and otherwise delete the candidate rows. -/
def cleanup (db : Db) (now : Int) (cleanupLimit : Nat) (limitSubquery : Bool) :
    CleanupResult :=
  if cleanupLimit = 0 then ⟨db, []⟩
  else
    let xs := cleanupCandidates db now cleanupLimit
    let selOps : List StorageOp := if limitSubquery then [] else [.cleanupSelect]
    let ids : Option String :=
      if limitSubquery then some (subqueryText now cleanupLimit) else enumeratedIds xs
    if idsFalsy ids then ⟨db, selOps⟩
    else ⟨deleteWhereIdIn db (xs.map (fun x => x.id)), selOps ++ [.cleanupDelete]⟩

/-! ## Upsert engine -/

/-- `findOneOrFail({ where: { id: sid }, withDeleted: true })`: locate
a row for the id with no soft-delete filter and no expiry filter. -/
def findWithDeleted (db : Db) (sid : SId) : Option ISession :=
  db.find? (fun r => decide (r.id = sid))

/-- `update({ destroyedAt: IsNull(), id: sid }, { expiredAt, json })`:
patch `expiredAt` and `json` on exactly the rows matching both the id
and `destroyedAt IS NULL`; every other row is untouched. -/
def updateLive (db : Db) (sid : SId) (json : String) (expiredAt : Int) : Db :=
  db.map (fun r =>
    if r.id = sid ∧ r.destroyedAt = none then
      { r with json := json, expiredAt := expiredAt }
    else r)

/-- `insert({ expiredAt, id, json })`: append a fresh row; the omitted
`destroyedAt` column defaults to NULL. -/
def insertRow (db : Db) (sid : SId) (json : String) (expiredAt : Int) : Db :=
  db ++ [{ id := sid, json := json, expiredAt := expiredAt, destroyedAt := none }]

/-- The upsert step of `set` under error-free storage: look the id up
including soft-deleted rows; on success run the conditional live-row
update (even if it matches zero rows), on lookup failure (`NotFound`)
insert.  Returns the new table and the statements issued. -/
def setUpsert (db : Db) (sid : String) (json : String) (now ttl : Int) :
    Db × List StorageOp :=
  match findWithDeleted db (.str sid) with
  | some _ => (updateLive db (.str sid) json (now + ttl * 1000), [.findOne, .update])
  | none => (insertRow db (.str sid) json (now + ttl * 1000), [.findOne, .insert])

/-! ## set and touch over the table -/

/-- Observable outcome of one `set` call: resulting table, storage
statements issued, callback invocations (`none` = success call,
`some e` = error call), and errors routed to `handleError`. -/
structure SetOut where
  db : Db
  ops : List StorageOp
  cbCalls : List (Option Err)
  handled : List Err
deriving DecidableEq, Repr

/-- `set(sid, session, callback?)` under error-free storage:
`JSON.stringify` the payload (`stringifyRes` injects the serializer
outcome; on failure the call returns after `callback?.(er)` with no
storage interaction), compute the ttl, run cleanup, then the upsert. -/
def setOp (stringifyRes : Except Err String) (ttlConf : Option Ttl) (sess : SessionData)
    (db : Db) (sid : String) (now : Int) (cleanupLimit : Nat) (limitSubquery : Bool)
    (hasCallback : Bool) : SetOut :=
  match stringifyRes with
  | .error e => ⟨db, [], if hasCallback then [some e] else [], []⟩
  | .ok json =>
    let ttl := getTTL ttlConf sess (some sid)
    let c := cleanup db now cleanupLimit limitSubquery
    let u := setUpsert c.db sid json now ttl
    ⟨u.1, c.ops ++ u.2, if hasCallback then [none] else [], []⟩

/-- `touch(sid, session, callback?)` storage effect: recompute the ttl
with `getTTL(session)` — no sid argument — and run the update query
builder `update({ expiredAt: Date.now() + ttl * 1000 }).whereInIds([sid])`:
it patches `expiredAt` on every row whose id matches, with no
soft-delete predicate, and touches no other column. -/
def touchOp (ttlConf : Option Ttl) (sess : SessionData) (db : Db) (sid : String)
    (now : Int) : Db :=
  let ttl := getTTL ttlConf sess none
  db.map (fun r =>
    if r.id = SId.str sid then { r with expiredAt := now + ttl * 1000 } else r)

/-! ## Error-channel control flow

Each public operation is a `try { ... } catch (e) { callback(e);
this.handleError(e); }` block.  The flow models below record, for every
combination of step outcomes, the callback invocations (`none` =
success-shaped call, `some e` = error call) and the errors routed to
`handleError`.  `cbThrow = some e` injects the case where the
user-supplied callback itself throws on its success invocation, which
lands in the enclosing catch. -/

/-- Observable error-channel trace of one public operation. -/
structure FlowOut where
  cbCalls : List (Option Err)
  handled : List Err
deriving DecidableEq, Repr

/-- The secondary error channel chosen by `handleError`. -/
inductive Secondary where
  | onErrorCall (e : Err)
  | disconnectEmit (e : Err)
deriving DecidableEq, Repr

/-- `handleError(er)`: call the configured `onError` handler, else emit
a `"disconnect"` event carrying the error. -/
def handleError (onErrorConfigured : Bool) (e : Err) : Secondary :=
  if onErrorConfigured then .onErrorCall e else .disconnectEmit e

/-- Control-flow skeleton of `set`: the inner `try { stringify } catch
{ return callback?.(er) }` exits before any storage work; cleanup
failures reach the outer catch; the upsert's inner catch turns both a
lookup failure and an update failure into an insert attempt whose own
failure reaches the outer catch. -/
def setFlow (hasCallback : Bool) (stringifyRes cleanupRes : Except Err Unit)
    (findOk : Bool) (updateRes insertRes : Except Err Unit) (cbThrow : Option Err) :
    FlowOut :=
  match stringifyRes with
  | .error e => ⟨if hasCallback then [some e] else [], []⟩
  | .ok _ =>
    match cleanupRes with
    | .error e => ⟨if hasCallback then [some e] else [], [e]⟩
    | .ok _ =>
      let upsertRes : Except Err Unit :=
        if findOk then
          match updateRes with
          | .ok _ => .ok ()
          | .error _ => insertRes
        else insertRes
      match upsertRes with
      | .error e => ⟨if hasCallback then [some e] else [], [e]⟩
      | .ok _ =>
        match hasCallback, cbThrow with
        | true, some e => ⟨[none, some e], [e]⟩
        | true, none => ⟨[none], []⟩
        | false, _ => ⟨[], []⟩

/-- Control-flow skeleton of `get`: a query failure, a `JSON.parse`
failure, and a throwing callback all land in the single catch; an
absent row is a success-shaped `callback()`. -/
def getFlow (queryRes : Except Err (Option String)) (parse : String → Except Err Unit)
    (cbThrow : Option Err) : FlowOut :=
  match queryRes with
  | .error e => ⟨[some e], [e]⟩
  | .ok none =>
    match cbThrow with
    | some e => ⟨[none, some e], [e]⟩
    | none => ⟨[none], []⟩
  | .ok (some json) =>
    match parse json with
    | .error e => ⟨[some e], [e]⟩
    | .ok _ =>
      match cbThrow with
      | some e => ⟨[none, some e], [e]⟩
      | none => ⟨[none], []⟩

/-- Control-flow skeleton of `touch`: one storage update inside the
single try/catch. -/
def touchFlow (hasCallback : Bool) (updateRes : Except Err Unit) (cbThrow : Option Err) :
    FlowOut :=
  match updateRes with
  | .error e => ⟨if hasCallback then [some e] else [], [e]⟩
  | .ok _ =>
    match hasCallback, cbThrow with
    | true, some e => ⟨[none, some e], [e]⟩
    | true, none => ⟨[none], []⟩
    | false, _ => ⟨[], []⟩

/-- Control-flow skeleton of `destroy`: `Promise.all` over the
soft-deletes rejects with the first failure, which lands in the single
try/catch. -/
def destroyFlow (hasCallback : Bool) (softDeleteRes : Except Err Unit)
    (cbThrow : Option Err) : FlowOut :=
  match softDeleteRes with
  | .error e => ⟨if hasCallback then [some e] else [], [e]⟩
  | .ok _ =>
    match hasCallback, cbThrow with
    | true, some e => ⟨[none, some e], [e]⟩
    | true, none => ⟨[none], []⟩
    | false, _ => ⟨[], []⟩

/-- Per-row deserialization of `all`: the first failure aborts the
mapping. -/
def parseAll (parse : String → Except Err Unit) : List String → Except Err Unit
  | [] => .ok ()
  | j :: js =>
    match parse j with
    | .error e => .error e
    | .ok _ => parseAll parse js

/-- Control-flow skeleton of `all`: the query, the per-row
deserialization (first failure aborts), and a throwing callback all
land in the single catch, which reports `callback(err, [])`. -/
def allFlow (queryRes : Except Err (List String)) (parse : String → Except Err Unit)
    (cbThrow : Option Err) : FlowOut :=
  match queryRes with
  | .error e => ⟨[some e], [e]⟩
  | .ok jsons =>
    match parseAll parse jsons with
    | .error e => ⟨[some e], [e]⟩
    | .ok _ =>
      match cbThrow with
      | some e => ⟨[none, some e], [e]⟩
      | none => ⟨[none], []⟩

/-! ## Helper lemmas -/

theorem escBackslashAux_cons_bslash (t : List Char) :
    escBackslashAux (bslash :: t) = bslash :: bslash :: escBackslashAux t := by
  simp [escBackslashAux]

theorem escBackslashAux_cons_ne (c : Char) (t : List Char) (h : c ≠ bslash) :
    escBackslashAux (c :: t) = c :: escBackslashAux t := by
  simp [escBackslashAux, h]

theorem escQuoteAux_cons_squote (t : List Char) :
    escQuoteAux (squote :: t) = bslash :: squote :: escQuoteAux t := by
  simp [escQuoteAux]

theorem escQuoteAux_cons_ne (c : Char) (t : List Char) (h : c ≠ squote) :
    escQuoteAux (c :: t) = c :: escQuoteAux t := by
  simp [escQuoteAux, h]

theorem unescAux_cons_cons_bslash (c : Char) (t : List Char) :
    unescAux (bslash :: c :: t) = c :: unescAux t := by
  simp [unescAux]

theorem unescAux_cons_ne (c : Char) (t : List Char) (h : c ≠ bslash) :
    unescAux (c :: t) = c :: unescAux t := by
  cases t with
  | nil => simp [unescAux]
  | cons d u => simp [unescAux, h]

/-- Unescaping undoes the two escaping passes on the literal body. -/
theorem unescAux_escape_body (l : List Char) :
    unescAux (escQuoteAux (escBackslashAux l)) = l := by
  induction l with
  | nil => rfl
  | cons c t ih =>
    by_cases hb : c = bslash
    · subst hb
      rw [escBackslashAux_cons_bslash,
        escQuoteAux_cons_ne bslash _ (by decide),
        escQuoteAux_cons_ne bslash _ (by decide),
        unescAux_cons_cons_bslash, ih]
    · by_cases hq : c = squote
      · subst hq
        rw [escBackslashAux_cons_ne squote _ (by decide),
          escQuoteAux_cons_squote, unescAux_cons_cons_bslash, ih]
      · rw [escBackslashAux_cons_ne c _ hb, escQuoteAux_cons_ne c _ hq,
          unescAux_cons_ne c _ hb, ih]

/-- Unescaping a produced literal recovers the original string id. -/
theorem unescapeLiteral_escapeStringId (s : String) :
    unescapeLiteral (escapeStringId s) = s := by
  have hdata : (escapeStringId s).data
      = squote :: (escQuoteAux (escBackslashAux s.data) ++ [squote]) := rfl
  unfold unescapeLiteral
  rw [hdata]
  have hdrop : (squote :: (escQuoteAux (escBackslashAux s.data) ++ [squote])).drop 1
      = escQuoteAux (escBackslashAux s.data) ++ [squote] := rfl
  rw [hdrop, List.dropLast_concat, unescAux_escape_body]

/-! ## C3 and C7: the TTL policy -/

/-- C3: `getTTL` resolves, first match wins: a numeric configured ttl
is returned unchanged regardless of the session's cookie; a
function-valued configured ttl is invoked (with the session and sid)
and its result returned; otherwise a numeric `cookie.maxAge` yields
`floor(maxAge / 1000)`; otherwise exactly 86400 seconds. -/
theorem getTTL_resolution_order :
    (∀ (n : Int) (sess : SessionData) (sid : Option String),
      getTTL (some (.num n)) sess sid = n)
  ∧ (∀ (f : SessionData → Option String → Int) (sess : SessionData) (sid : Option String),
      getTTL (some (.fn f)) sess sid = f sess sid)
  ∧ (∀ (sess : SessionData) (sid : Option String) (m : Int),
      sess.cookie.maxAge = some m → getTTL none sess sid = Int.fdiv m 1000)
  ∧ (∀ (sess : SessionData) (sid : Option String),
      sess.cookie.maxAge = none → getTTL none sess sid = 86400) := by
  refine ⟨fun n sess sid => rfl, fun f sess sid => rfl, ?_, ?_⟩
  · intro sess sid m h
    simp [getTTL, h]
  · intro sess sid h
    simp [getTTL, h, oneDay]

/-- Witness for C3 at concrete inputs: a fixed ttl of 60 overrides a
cookie-derived value, `maxAge = 5500` yields 5, absent `maxAge` yields
86400. -/
theorem getTTL_resolution_order_witness :
    getTTL (some (.num 60)) ⟨⟨some 5000⟩⟩ (some "a") = 60
  ∧ getTTL (some (.fn (fun _ _ => 7))) ⟨⟨some 5000⟩⟩ none = 7
  ∧ getTTL none ⟨⟨some 5500⟩⟩ none = 5
  ∧ getTTL none ⟨⟨none⟩⟩ none = 86400 := by
  refine ⟨getTTL_resolution_order.1 60 ⟨⟨some 5000⟩⟩ (some "a"),
    getTTL_resolution_order.2.1 (fun _ _ => 7) ⟨⟨some 5000⟩⟩ none, ?_,
    getTTL_resolution_order.2.2.2 ⟨⟨none⟩⟩ none rfl⟩
  rw [getTTL_resolution_order.2.2.1 ⟨⟨some 5500⟩⟩ none 5500 rfl]
  decide

/-- C7: under the default configuration (no configured ttl), a session
whose cookie carries no numeric `maxAge` gets the one-day default of
86400 seconds; `getTTL` is total, so the computation cannot fail. -/
theorem getTTL_default_tolerates_absent_cookie_metadata :
    ∀ (sess : SessionData) (sid : Option String),
      sess.cookie.maxAge = none → getTTL none sess sid = 86400 := by
  intro sess sid h
  simp [getTTL, h, oneDay]

/-- Witness for C7: a session with no cookie metadata at all gets the
one-day default. -/
theorem getTTL_default_tolerates_absent_cookie_metadata_witness :
    getTTL none ⟨⟨none⟩⟩ none = 86400 :=
  getTTL_default_tolerates_absent_cookie_metadata ⟨⟨none⟩⟩ none rfl

/-! ## C9: enumerated-mode escaping -/

/-- C9: the enumerated-mode escaping round-trips: unescaping the
literal produced for a string id recovers exactly the id, distinct
string ids produce distinct literals, and numeric ids are rendered
bare (unquoted). -/
theorem escapeId_roundtrip :
    (∀ s : String, unescapeLiteral (escapeId (.str s)) = s)
  ∧ (∀ s₁ s₂ : String, escapeId (.str s₁) = escapeId (.str s₂) → s₁ = s₂)
  ∧ (∀ n : Int, escapeId (.num n) = toString n) := by
  refine ⟨fun s => unescapeLiteral_escapeStringId s, ?_, fun n => rfl⟩
  intro s₁ s₂ h
  have h₁ := unescapeLiteral_escapeStringId s₁
  have h₂ := unescapeLiteral_escapeStringId s₂
  rw [← h₁, ← h₂]
  exact congrArg unescapeLiteral h

/-- Witness for C9 on an id containing a quote and a backslash
(code points 39 and 92), and on a negative numeric id. -/
theorem escapeId_roundtrip_witness :
    unescapeLiteral (escapeId (.str ⟨[Char.ofNat 97, squote, bslash, Char.ofNat 98]⟩))
      = ⟨[Char.ofNat 97, squote, bslash, Char.ofNat 98]⟩
  ∧ (⟨[Char.ofNat 97, squote, bslash, Char.ofNat 98]⟩ : String)
      = ⟨[Char.ofNat 97, squote, bslash, Char.ofNat 98]⟩
  ∧ escapeId (.num (-7)) = toString (-7 : Int) :=
  ⟨escapeId_roundtrip.1 ⟨[Char.ofNat 97, squote, bslash, Char.ofNat 98]⟩,
   escapeId_roundtrip.2.1 ⟨[Char.ofNat 97, squote, bslash, Char.ofNat 98]⟩
     ⟨[Char.ofNat 97, squote, bslash, Char.ofNat 98]⟩ rfl,
   escapeId_roundtrip.2.2 (-7)⟩

/-! ## C4: enumerated-mode cleanup with zero candidates -/

/-- C4: in enumerated mode (`limitSubquery = false`) with a positive
`cleanupLimit`, when the candidate select returns no expired or
soft-deleted rows, cleanup issues only the select — no delete statement
at all — and leaves the table unchanged. -/
theorem cleanup_enumerated_zero_candidates_no_delete :
    ∀ (db : Db) (now : Int) (lim : Nat), 0 < lim →
      cleanupCandidates db now lim = [] →
      cleanup db now lim false = ⟨db, [.cleanupSelect]⟩ := by
  intro db now lim hlim hempty
  unfold cleanup
  rw [if_neg (by omega)]
  simp [hempty, enumeratedIds, idsFalsy]

/-- Witness for C4: one live, unexpired row; the candidate select is
empty and cleanup issues no delete. -/
theorem cleanup_enumerated_zero_candidates_no_delete_witness :
    cleanupCandidates [⟨.str "a", "j", 100, none⟩] 0 1 = []
  ∧ cleanup [⟨.str "a", "j", 100, none⟩] 0 1 false
      = ⟨[⟨.str "a", "j", 100, none⟩], [.cleanupSelect]⟩ :=
  ⟨by decide,
   cleanup_enumerated_zero_candidates_no_delete [⟨.str "a", "j", 100, none⟩] 0 1
     (by decide) (by decide)⟩

/-! ## C6: serialization failure in set -/

/-- C6: when serializing the payload fails, `set` reports the error to
the supplied callback, issues no storage statement of any kind, leaves
the table unchanged, and does not route the error to `handleError`. -/
theorem set_serialization_failure_no_storage :
    ∀ (e : Err) (ttlConf : Option Ttl) (sess : SessionData) (db : Db) (sid : String)
      (now : Int) (lim : Nat) (sub : Bool),
      setOp (.error e) ttlConf sess db sid now lim sub true
        = ⟨db, [], [some e], []⟩ :=
  fun _ _ _ _ _ _ _ _ => rfl

/-! ## C1: the upsert protocol of set -/

/-- `findOneOrFail` rejects exactly when no row carries the id. -/
theorem findWithDeleted_eq_none_iff (db : Db) (sid : SId) :
    findWithDeleted db sid = none ↔ ∀ r ∈ db, r.id ≠ sid := by
  simp [findWithDeleted, List.find?_eq_none]

/-- C1: when some row — live or soft-deleted — carries the sid, `set`
issues the conditional live-row update and never inserts: the result is
exactly `updateLive`, the row count is unchanged, each row is patched
iff it matches `id = sid AND destroyedAt IS NULL`, and when the update
matches zero rows (every sid row soft-deleted) the table is unchanged.
Only when the lookup finds no row does `set` insert a fresh row with
the given id, json, and `expiredAt = now + ttl * 1000`. -/
theorem set_upsert_protocol :
    ∀ (db : Db) (sid : String) (json : String) (now ttl : Int),
      ((∃ r ∈ db, r.id = SId.str sid) →
        setUpsert db sid json now ttl
          = (updateLive db (SId.str sid) json (now + ttl * 1000), [.findOne, .update])
        ∧ (setUpsert db sid json now ttl).1.length = db.length
        ∧ (∀ i : Nat, (setUpsert db sid json now ttl).1[i]? = (db[i]?).map (fun r =>
            if r.id = SId.str sid ∧ r.destroyedAt = none then
              { r with json := json, expiredAt := now + ttl * 1000 }
            else r))
        ∧ ((∀ r ∈ db, r.id = SId.str sid → r.destroyedAt ≠ none) →
            (setUpsert db sid json now ttl).1 = db))
      ∧ ((¬ ∃ r ∈ db, r.id = SId.str sid) →
        setUpsert db sid json now ttl
          = (db ++ [{ id := SId.str sid, json := json, expiredAt := now + ttl * 1000,
                      destroyedAt := none }], [.findOne, .insert])) := by
  intro db sid json now ttl
  constructor
  · intro hex
    have hne : findWithDeleted db (.str sid) ≠ none := by
      intro hno
      rw [findWithDeleted_eq_none_iff] at hno
      obtain ⟨r, hr, hid⟩ := hex
      exact hno r hr hid
    obtain ⟨r, hr⟩ := Option.ne_none_iff_exists.mp hne
    have heq : setUpsert db sid json now ttl
        = (updateLive db (SId.str sid) json (now + ttl * 1000), [.findOne, .update]) := by
      unfold setUpsert
      rw [← hr]
    refine ⟨heq, ?_, ?_, ?_⟩
    · rw [heq]
      simp [updateLive]
    · intro i
      rw [heq]
      simp [updateLive, List.getElem?_map]
    · intro hdead
      rw [heq]
      show updateLive db (SId.str sid) json (now + ttl * 1000) = db
      unfold updateLive
      have : ∀ r ∈ db,
          (if r.id = SId.str sid ∧ r.destroyedAt = none then
            { r with json := json, expiredAt := now + ttl * 1000 }
          else r) = id r := by
        intro r hrm
        by_cases hid : r.id = SId.str sid
        · rw [if_neg]
          · rfl
          · rintro ⟨_, hnone⟩
            exact hdead r hrm hid hnone
        · rw [if_neg]
          · rfl
          · rintro ⟨h₁, _⟩
            exact hid h₁
      rw [List.map_congr_left this, List.map_id]
  · intro hnone
    have h : findWithDeleted db (.str sid) = none := by
      rw [findWithDeleted_eq_none_iff]
      intro r hr hid
      exact hnone ⟨r, hr, hid⟩
    unfold setUpsert
    rw [h]
    simp [insertRow]

/-- Witness for C1 at concrete inputs: a table holding only a
soft-deleted row for the sid takes the update path, matches zero rows
and stays unchanged with no insert; an empty table takes the insert
path. -/
theorem set_upsert_protocol_witness :
    setUpsert [⟨.str "a", "old", 5, some 3⟩] "a" "new" 100 2
      = (updateLive [⟨.str "a", "old", 5, some 3⟩] (SId.str "a") "new" (100 + 2 * 1000),
         [.findOne, .update])
  ∧ (setUpsert [⟨.str "a", "old", 5, some 3⟩] "a" "new" 100 2).1
      = [⟨.str "a", "old", 5, some 3⟩]
  ∧ setUpsert [] "a" "new" 100 2
      = ([{ id := SId.str "a", json := "new", expiredAt := 100 + 2 * 1000,
            destroyedAt := none }], [.findOne, .insert]) := by
  refine ⟨?_, ?_, ?_⟩
  · exact (set_upsert_protocol [⟨.str "a", "old", 5, some 3⟩] "a" "new" 100 2).1
      ⟨⟨.str "a", "old", 5, some 3⟩, by decide, rfl⟩ |>.1
  · exact ((set_upsert_protocol [⟨.str "a", "old", 5, some 3⟩] "a" "new" 100 2).1
      ⟨⟨.str "a", "old", 5, some 3⟩, by decide, rfl⟩).2.2.2 (by decide)
  · exact (set_upsert_protocol [] "a" "new" 100 2).2 (by simp)

/-! ## C8: touch updates only expiredAt, unconditionally -/

/-- C8: `touch` preserves the row count and, on every row, the `id`,
`json` and `destroyedAt` columns; every row whose id matches the sid —
soft-deleted ones included, there is no `destroyedAt IS NULL`
predicate — gets `expiredAt = now + ttl * 1000` where the ttl is
computed by `getTTL` with no sid argument; every other row is
untouched. -/
theorem touch_updates_only_expiredAt :
    ∀ (ttlConf : Option Ttl) (sess : SessionData) (db : Db) (sid : String) (now : Int),
      (touchOp ttlConf sess db sid now).length = db.length
      ∧ (∀ i : Nat,
          ((touchOp ttlConf sess db sid now)[i]?.map (fun r => r.id)
            = (db[i]?).map (fun r => r.id))
          ∧ ((touchOp ttlConf sess db sid now)[i]?.map (fun r => r.json)
            = (db[i]?).map (fun r => r.json))
          ∧ ((touchOp ttlConf sess db sid now)[i]?.map (fun r => r.destroyedAt)
            = (db[i]?).map (fun r => r.destroyedAt)))
      ∧ (∀ (i : Nat) (r : ISession), db[i]? = some r → r.id = SId.str sid →
          (touchOp ttlConf sess db sid now)[i]?
            = some { r with expiredAt := now + getTTL ttlConf sess none * 1000 })
      ∧ (∀ (i : Nat) (r : ISession), db[i]? = some r → r.id ≠ SId.str sid →
          (touchOp ttlConf sess db sid now)[i]? = some r) := by
  intro ttlConf sess db sid now
  refine ⟨by simp [touchOp], ?_, ?_, ?_⟩
  · intro i
    simp only [touchOp, List.getElem?_map]
    cases hdb : db[i]? with
    | none => simp
    | some r =>
      by_cases hid : r.id = SId.str sid
      · simp [hid]
      · simp [hid]
  · intro i r hdb hid
    simp [touchOp, List.getElem?_map, hdb, hid]
  · intro i r hdb hid
    simp [touchOp, List.getElem?_map, hdb, hid]

/-- Witness for C8: touching a soft-deleted row still rewrites its
expiry — computed with the sid-less `getTTL`, here the one-day
default — and leaves json and the soft-delete marker alone, while a
row with another id is untouched. -/
theorem touch_updates_only_expiredAt_witness :
    (touchOp none ⟨⟨none⟩⟩ [⟨.str "a", "j", 5, some 3⟩, ⟨.str "b", "k", 6, none⟩]
        "a" 100)[0]? = some ⟨.str "a", "j", 100 + 86400 * 1000, some 3⟩
  ∧ (touchOp none ⟨⟨none⟩⟩ [⟨.str "a", "j", 5, some 3⟩, ⟨.str "b", "k", 6, none⟩]
        "a" 100)[1]? = some ⟨.str "b", "k", 6, none⟩ := by
  constructor
  · have h := (touch_updates_only_expiredAt none ⟨⟨none⟩⟩
      [⟨.str "a", "j", 5, some 3⟩, ⟨.str "b", "k", 6, none⟩] "a" 100).2.2.1 0
      ⟨.str "a", "j", 5, some 3⟩ (by decide) rfl
    simpa using h
  · have h := (touch_updates_only_expiredAt none ⟨⟨none⟩⟩
      [⟨.str "a", "j", 5, some 3⟩, ⟨.str "b", "k", 6, none⟩] "a" 100).2.2.2 1
      ⟨.str "b", "k", 6, none⟩ (by decide) (by decide)
    simpa using h

/-! ## C2: read visibility -/

/-- C2: a stored record is returned by the reads iff it is live and
unexpired: when no row for the sid is live with `expiredAt > now`,
`get` completes successfully with no session data (no error); any
data `get` returns comes from a stored row for the sid with
`destroyedAt` null and `expiredAt > now`; `all`'s row set is exactly
the rows with `destroyedAt` null and `expiredAt > now`; and when a
visible row for the sid exists, `get` returns its parsed payload. -/
theorem read_visibility :
    ∀ {α : Type} (parse : String → Except Err α) (db : Db) (sid : String) (now : Int),
      ((∀ r ∈ db, r.id = SId.str sid → r.destroyedAt = none → now < r.expiredAt → False) →
        getOp parse db sid now = .ok none)
      ∧ (∀ a : α, getOp parse db sid now = .ok (some a) →
          ∃ r ∈ db, r.id = SId.str sid ∧ r.destroyedAt = none ∧ now < r.expiredAt
            ∧ parse r.json = .ok a)
      ∧ (∀ r : ISession, r ∈ createQueryBuilder db now ↔
          (r ∈ db ∧ r.destroyedAt = none ∧ now < r.expiredAt))
      ∧ ((∃ r ∈ db, r.id = SId.str sid ∧ r.destroyedAt = none ∧ now < r.expiredAt) →
          ∃ r ∈ db, r.id = SId.str sid ∧ r.destroyedAt = none ∧ now < r.expiredAt
            ∧ getOp parse db sid now = (parse r.json).map some) := by
  intro α parse db sid now
  have hmem : ∀ r : ISession, r ∈ createQueryBuilder db now ↔
      (r ∈ db ∧ r.destroyedAt = none ∧ now < r.expiredAt) := by
    intro r
    simp [createQueryBuilder, List.mem_filter, Option.isNone_iff_eq_none]
  refine ⟨?_, ?_, hmem, ?_⟩
  · intro hinv
    have hfind : (createQueryBuilder db now).find? (fun r => decide (r.id = SId.str sid))
        = none := by
      rw [List.find?_eq_none]
      intro r hr
      simp only [decide_eq_true_eq]
      intro hid
      obtain ⟨hrdb, hlive, hexp⟩ := (hmem r).mp hr
      exact hinv r hrdb hid hlive hexp
    simp [getOp, hfind]
  · intro a ha
    unfold getOp at ha
    cases hfind : (createQueryBuilder db now).find? (fun r => decide (r.id = SId.str sid)) with
    | none =>
      rw [hfind] at ha
      exact absurd ha (by simp)
    | some r =>
      rw [hfind] at ha
      have ha' : Except.map some (parse r.json) = .ok (some a) := ha
      have hid : r.id = SId.str sid := by
        have := List.find?_some hfind
        simpa using this
      have hrmem := List.mem_of_find?_eq_some hfind
      obtain ⟨hrdb, hlive, hexp⟩ := (hmem r).mp hrmem
      refine ⟨r, hrdb, hid, hlive, hexp, ?_⟩
      cases hp : parse r.json with
      | error e =>
        rw [hp] at ha'
        exact absurd ha' (by simp [Except.map])
      | ok b =>
        rw [hp] at ha'
        have hba : b = a := by
          simpa [Except.map] using ha'
        rw [hba]
  · intro hex
    cases hfind : (createQueryBuilder db now).find? (fun r => decide (r.id = SId.str sid)) with
    | none =>
      exfalso
      rw [List.find?_eq_none] at hfind
      obtain ⟨r, hrdb, hid, hlive, hexp⟩ := hex
      have hr : r ∈ createQueryBuilder db now := (hmem r).mpr ⟨hrdb, hlive, hexp⟩
      exact absurd (by simpa using hfind r hr) (by simp [hid])
    | some r =>
      have hid : r.id = SId.str sid := by
        have := List.find?_some hfind
        simpa using this
      obtain ⟨hrdb, hlive, hexp⟩ := (hmem r).mp (List.mem_of_find?_eq_some hfind)
      refine ⟨r, hrdb, hid, hlive, hexp, ?_⟩
      unfold getOp
      rw [hfind]

/-- Witness for C2: a table holding an expired live row, a soft-deleted
fresh row, and a visible row under another sid; `get` of the first two
sids completes with no data, `get` of the visible sid returns its
payload, coming from the visible stored row. -/
theorem read_visibility_witness :
    getOp (fun s => Except.ok s) [⟨.str "a", "x", 5, none⟩, ⟨.str "b", "y", 100, some 1⟩,
        ⟨.str "c", "z", 100, none⟩] "a" 50 = .ok none
  ∧ getOp (fun s => Except.ok s) [⟨.str "a", "x", 5, none⟩, ⟨.str "b", "y", 100, some 1⟩,
        ⟨.str "c", "z", 100, none⟩] "b" 50 = .ok none
  ∧ (∃ r ∈ ([⟨.str "a", "x", 5, none⟩, ⟨.str "b", "y", 100, some 1⟩,
        ⟨.str "c", "z", 100, none⟩] : Db), r.id = SId.str "c" ∧ r.destroyedAt = none
        ∧ (50 : Int) < r.expiredAt
        ∧ (fun s => (Except.ok s : Except Err String)) r.json = .ok "z")
  ∧ (∃ r ∈ ([⟨.str "a", "x", 5, none⟩, ⟨.str "b", "y", 100, some 1⟩,
        ⟨.str "c", "z", 100, none⟩] : Db), r.id = SId.str "c" ∧ r.destroyedAt = none
        ∧ (50 : Int) < r.expiredAt
        ∧ getOp (fun s => (Except.ok s : Except Err String)) [⟨.str "a", "x", 5, none⟩,
            ⟨.str "b", "y", 100, some 1⟩, ⟨.str "c", "z", 100, none⟩] "c" 50
          = (Except.ok r.json).map some) := by
  refine ⟨?_, ?_, ?_, ?_⟩
  · exact (read_visibility (fun s => Except.ok s) _ "a" 50).1 (by decide)
  · exact (read_visibility (fun s => Except.ok s) _ "b" 50).1 (by decide)
  · exact (read_visibility (fun s => Except.ok s) _ "c" 50).2.1 "z" rfl
  · exact (read_visibility (fun s => Except.ok s) _ "c" 50).2.2.2
      ⟨⟨.str "c", "z", 100, none⟩, by decide, rfl, rfl, by decide⟩

/-! ## C10: a throwing success callback is invoked again -/

/-- C10: for every public operation — `set`, `get`, `touch`, `destroy`
and `all` — when the storage work succeeds but the user-supplied
callback throws on its success invocation, the enclosing catch invokes
the same callback a second time with the thrown error and routes that
error to `handleError`: the callback trace is `[success, error]`, so
the callback is not invoked at most once. -/
theorem callback_throw_double_invocation :
    ∀ (e : Err) (findOk : Bool),
      (setFlow true (.ok ()) (.ok ()) findOk (.ok ()) (.ok ()) (some e)
        = ⟨[none, some e], [e]⟩)
      ∧ (getFlow (.ok none) (fun _ => .ok ()) (some e) = ⟨[none, some e], [e]⟩)
      ∧ (∀ (js : String) (parse : String → Except Err Unit), parse js = .ok () →
          getFlow (.ok (some js)) parse (some e) = ⟨[none, some e], [e]⟩)
      ∧ (touchFlow true (.ok ()) (some e) = ⟨[none, some e], [e]⟩)
      ∧ (destroyFlow true (.ok ()) (some e) = ⟨[none, some e], [e]⟩)
      ∧ (∀ (jsons : List String) (parse : String → Except Err Unit),
          parseAll parse jsons = .ok () →
          allFlow (.ok jsons) parse (some e) = ⟨[none, some e], [e]⟩) := by
  intro e findOk
  refine ⟨by cases findOk <;> rfl, rfl, ?_, rfl, rfl, ?_⟩
  · intro js parse hp
    simp [getFlow, hp]
  · intro jsons parse hp
    simp [allFlow, hp]

/-- Witness for C10: concrete throwing callbacks over a successful
`set`, a successful `get` with a parseable row, a successful `touch`
and `destroy`, and a successful `all` over a parseable row list. -/
theorem callback_throw_double_invocation_witness :
    (setFlow true (.ok ()) (.ok ()) true (.ok ()) (.ok ()) (some "cb boom")
      = ⟨[none, some "cb boom"], ["cb boom"]⟩)
  ∧ (getFlow (.ok (some "{}")) (fun _ => .ok ()) (some "cb boom")
      = ⟨[none, some "cb boom"], ["cb boom"]⟩)
  ∧ (touchFlow true (.ok ()) (some "cb boom")
      = ⟨[none, some "cb boom"], ["cb boom"]⟩)
  ∧ (destroyFlow true (.ok ()) (some "cb boom")
      = ⟨[none, some "cb boom"], ["cb boom"]⟩)
  ∧ (allFlow (.ok ["{}"]) (fun _ => .ok ()) (some "cb boom")
      = ⟨[none, some "cb boom"], ["cb boom"]⟩) :=
  ⟨(callback_throw_double_invocation "cb boom" true).1,
   (callback_throw_double_invocation "cb boom" true).2.2.1 "{}" (fun _ => .ok ()) rfl,
   (callback_throw_double_invocation "cb boom" true).2.2.2.1,
   (callback_throw_double_invocation "cb boom" true).2.2.2.2.1,
   (callback_throw_double_invocation "cb boom" true).2.2.2.2.2 ["{}"]
     (fun _ => .ok ()) rfl⟩

/-! ## C5: the two error channels -/

/-- C5 fails as stated: a serialization failure in `set` is reported
only through the completion callback — `handleError` is never reached,
so this failure reaches exactly one of the two channels. -/
theorem set_serialization_error_reaches_one_channel :
    (setFlow true (.error "boom") (.ok ()) true (.ok ()) (.ok ()) none).cbCalls
      = [some "boom"]
  ∧ (setFlow true (.error "boom") (.ok ()) true (.ok ()) (.ok ()) none).handled
      = [] :=
  ⟨rfl, rfl⟩

/-- C5 amended: with a callback supplied, every failure that reaches an
operation's outer catch — in `get`, `set` past serialization, `touch`,
`destroy` and `all` — is reported both to the callback and to
`handleError`, which forwards to the configured `onError` handler or
else emits a `"disconnect"` event; but `set`'s serialization failure
reaches only the callback, and a lookup or update failure inside
`set`'s upsert try-block is swallowed by the insert fallback and, when
that insert succeeds, reaches neither channel. -/
theorem error_channel_routing :
    (∀ (cleanupRes : Except Err Unit) (findOk : Bool)
       (updateRes insertRes : Except Err Unit) (cbThrow : Option Err),
       (setFlow true (.ok ()) cleanupRes findOk updateRes insertRes cbThrow).handled
         = ((setFlow true (.ok ()) cleanupRes findOk updateRes insertRes
              cbThrow).cbCalls).filterMap id)
  ∧ (∀ e : Err,
      setFlow true (.error e) (.ok ()) true (.ok ()) (.ok ()) none = ⟨[some e], []⟩)
  ∧ (∀ e : Err,
      setFlow true (.ok ()) (.ok ()) true (.error e) (.ok ()) none = ⟨[none], []⟩)
  ∧ (∀ (qr : Except Err (Option String)) (parse : String → Except Err Unit)
       (cbThrow : Option Err),
       (getFlow qr parse cbThrow).handled
         = ((getFlow qr parse cbThrow).cbCalls).filterMap id)
  ∧ (∀ (updateRes : Except Err Unit) (cbThrow : Option Err),
       (touchFlow true updateRes cbThrow).handled
         = ((touchFlow true updateRes cbThrow).cbCalls).filterMap id)
  ∧ (∀ (softDeleteRes : Except Err Unit) (cbThrow : Option Err),
       (destroyFlow true softDeleteRes cbThrow).handled
         = ((destroyFlow true softDeleteRes cbThrow).cbCalls).filterMap id)
  ∧ (∀ (qr : Except Err (List String)) (parse : String → Except Err Unit)
       (cbThrow : Option Err),
       (allFlow qr parse cbThrow).handled
         = ((allFlow qr parse cbThrow).cbCalls).filterMap id)
  ∧ (∀ e : Err, handleError true e = .onErrorCall e
      ∧ handleError false e = .disconnectEmit e) := by
  refine ⟨?_, fun e => rfl, fun e => rfl, ?_, ?_, ?_, ?_, fun e => ⟨rfl, rfl⟩⟩
  · intro cleanupRes findOk updateRes insertRes cbThrow
    cases cleanupRes with
    | error e => rfl
    | ok _ =>
      cases findOk <;> cases updateRes <;> cases insertRes <;> cases cbThrow <;> rfl
  · intro qr parse cbThrow
    cases qr with
    | error e => rfl
    | ok o =>
      cases o with
      | none => cases cbThrow <;> rfl
      | some js => cases hp : parse js <;> cases cbThrow <;> simp [getFlow, hp]
  · intro updateRes cbThrow
    cases updateRes <;> cases cbThrow <;> rfl
  · intro softDeleteRes cbThrow
    cases softDeleteRes <;> cases cbThrow <;> rfl
  · intro qr parse cbThrow
    cases qr with
    | error e => rfl
    | ok js =>
      cases hp : parseAll parse js <;> cases cbThrow <;> simp [allFlow, hp]

end ConnectTypeorm
